import Mathlib

/-!
# The Spike tracing driver of jolt-fib

A shallow embedding of `crates/spike-tracer/src/spike.cc` (and the class declared in
`spike.h`): the constructor of `SpikeTracer`, `SpikeTracer::run` and `new_spike_tracer`.

Strings are byte lists. A `const char*` is modelled by the memory it points at, because
that is all a reader of a C string can observe. The heap is explicit state, so that the
regions `run` acquires with `new` and gives back with `delete` can be counted. The
simulator (`sim_t` of the Spike library) is outside the repository: it enters `run` as a
parameter that answers the two calls that may fail, and `run` records every call it
makes to it.
-/

set_option linter.unusedVariables false

namespace Spike

/-! ## Strings and pointers -/

/-- One byte of a string: a `char` of a `std::string`, a `u8` of a Rust `str`. -/
abbrev Byte := Fin 256

/-- A `const char*`, modelled by the bytes of memory from the pointed one onward. -/
structure CharPtr where
  mem : List Byte
deriving DecidableEq, Repr

/-- What a reader of a NUL-terminated string sees in `mem`: the bytes before the first
zero byte. `none` when `mem` holds no zero byte (the reader runs off the modelled
memory). -/
def readCStr : List Byte → Option (List Byte)
  | [] => none
  | b :: rest => if b = 0 then some [] else (readCStr rest).map (List.cons b)

/-- The string a C-string reader obtains through the pointer. -/
def CharPtr.str (p : CharPtr) : Option (List Byte) := readCStr p.mem

/-- A `rust::Str`: a borrowed pointer and a length, with no terminator of its own.
`bytes` are the `size()` bytes of the string, `beyond` is the memory that follows
them. -/
structure RustStr where
  bytes : List Byte
  beyond : List Byte
deriving DecidableEq, Repr

/-- The pointer `rust::Str::data()`. -/
def RustStr.data (s : RustStr) : CharPtr := { mem := s.bytes ++ s.beyond }

/-- The length `rust::Str::size()`. -/
def RustStr.size (s : RustStr) : Nat := s.bytes.length

/-- A `std::string`: an owned byte sequence. -/
structure StdString where
  chars : List Byte
deriving DecidableEq, Repr

/-- The constructor `std::string(const char* p, size_t n)`: a copy of `n` bytes at `p`. -/
def StdString.ofData (p : CharPtr) (n : Nat) : StdString := { chars := p.mem.take n }

/-- The pointer `std::string::c_str()`: the owned bytes followed by a terminator. -/
def StdString.c_str (s : StdString) : CharPtr := { mem := s.chars ++ [0] }

/-! ## Types of the simulator library, as far as `run` uses them -/

/-- Modelled from the spec: `mem_cfg_t` (riscv/cfg.h) is not among the sources. One entry
of the memory layout, a (base address, size) pair of `reg_t` (unsigned 64-bit) values,
read back by `get_base` and `get_size`. -/
structure mem_cfg_t where
  base : Nat
  size : Nat
deriving DecidableEq, Repr

/-- The accessor `mem_cfg_t::get_base`. -/
def mem_cfg_t.get_base (c : mem_cfg_t) : Nat := c.base

/-- The accessor `mem_cfg_t::get_size`. -/
def mem_cfg_t.get_size (c : mem_cfg_t) : Nat := c.size

/-- Modelled from the spec: `endianness_t` is not among the sources; the byte orders. -/
inductive endianness_t where
  | endianness_little
  | endianness_big
deriving DecidableEq, Repr

/-- Modelled from the spec: `cfg_t` (riscv/cfg.h) is not among the sources. The record
keeps exactly the fields that `run` assigns (lines 22 to 35). -/
structure cfg_t where
  isa : CharPtr
  priv : CharPtr
  misaligned : Bool
  endianness : endianness_t
  pmpregions : Nat
  pmpgranularity : Nat
  real_time_clint : Bool
  trigger_count : Nat
  cache_blocksz : Nat
  mem_layout : List mem_cfg_t
deriving DecidableEq, Repr

/-- Modelled from the spec: `mem_t` (riscv/devices.h) is not among the sources. A backing
buffer of `sz` bytes living on the heap at `addr`; the pointer `abstract_mem_t*` is
modelled by the object it points at. -/
structure mem_t where
  addr : Nat
  sz : Nat
deriving DecidableEq, Repr

/-- The heap, as far as `mem_t` objects go: the next fresh address and the addresses of
the objects that are live. -/
structure Heap where
  next : Nat
  live : List Nat
deriving DecidableEq, Repr

/-- The expression `new mem_t(size)`. -/
def Heap.new_mem_t (h : Heap) (size : Nat) : mem_t × Heap :=
  ({ addr := h.next, sz := size }, { next := h.next + 1, live := h.live ++ [h.next] })

/-- The statement `delete p` for a `mem_t` pointer. -/
def Heap.delete (h : Heap) (m : mem_t) : Heap :=
  { next := h.next, live := h.live.erase m.addr }

/-- Modelled from the spec: `sim_t` (riscv/sim.h) is not among the sources. The twelve
arguments of its constructor, in the order `run` passes them on line 49. A null pointer
is `none`; the instruction limit is an optional count, `none` meaning no limit. -/
structure sim_args where
  cfg : cfg_t
  halted : Bool
  mems : List (Nat × mem_t)
  plugin_device_factories : List Unit
  args : List StdString
  dm_config : Unit
  log_path : Option CharPtr
  dtb_enabled : Bool
  dtb_file : Option CharPtr
  socket_enabled : Bool
  cmd_file : Option Unit
  instruction_limit : Option Nat
deriving DecidableEq, Repr

/-- A call `run` makes to the simulator. -/
inductive SimCall where
  | construct (a : sim_args)
  | configure_log (enable_log enable_commitlog : Bool)
  | set_histogram (value : Bool)
  | run
deriving DecidableEq, Repr

/-- The simulator, a parameter of the model: whether its constructor returns (`false`:
it throws) and what `sim.run()` returns (`none`: it throws) for the given constructor
arguments and logging switches (instruction log, commit log, histogram). -/
structure Simulator where
  construct : sim_args → Bool
  run : sim_args → Bool → Bool → Bool → Option Int

/-! ## The class `SpikeTracer` -/

/-- The class of `spike.h`: the stored ISA string and the instruction budget. -/
structure SpikeTracer where
  isa : StdString
  max_instructions : Nat
deriving DecidableEq, Repr

/-- The constructor `SpikeTracer::SpikeTracer` (lines 11 and 12). -/
def SpikeTracer.new (isa : RustStr) : SpikeTracer :=
  { max_instructions := 1000000, isa := StdString.ofData isa.data isa.size }

/-- The error kinds the specification gives the configuration assembler. No function of
the source constructs either of them. -/
inductive ConfigError where
  | InvalidIsa
  | InvalidBudget
deriving DecidableEq, Repr

/-- The factory `new_spike_tracer` (lines 65 to 67): it always returns a tracer. -/
def new_spike_tracer (isa : RustStr) : Except ConfigError SpikeTracer :=
  Except.ok (SpikeTracer.new isa)

/-- How a call of `run` ends: it returns an `int`, or an exception leaves it. -/
inductive Outcome where
  | returned (code : Int)
  | threw
deriving DecidableEq, Repr

/-- What a call of `run` leaves behind: how it ended, the heap, and the calls it made to
the simulator, in order. -/
structure RunResult where
  outcome : Outcome
  heap : Heap
  calls : List SimCall
deriving DecidableEq, Repr

/-- The memory layout of lines 33 and 34. -/
def run_mem_layout : List mem_cfg_t :=
  [{ base := 0x80000000, size := 0x80000000 }]

/-- The configuration of lines 21 to 35. -/
def SpikeTracer.run_cfg (self : SpikeTracer) : cfg_t :=
  { isa := self.isa.c_str
    priv := { mem := [77, 83, 85, 0] }
    misaligned := false
    endianness := endianness_t.endianness_little
    pmpregions := 16
    pmpgranularity := 4
    real_time_clint := false
    trigger_count := 4
    cache_blocksz := 64
    mem_layout := run_mem_layout }

/-- The provisioning loop of lines 39 to 41, started with the regions pushed so far. -/
def provision : List mem_cfg_t → List (Nat × mem_t) → Heap → List (Nat × mem_t) × Heap
  | [], mems, h => (mems, h)
  | cfg :: rest, mems, h =>
      provision rest (mems ++ [(cfg.get_base, (h.new_mem_t cfg.get_size).1)])
        (h.new_mem_t cfg.get_size).2

/-- The clean-up loop of lines 59 to 61. -/
def release : List (Nat × mem_t) → Heap → Heap
  | [], h => h
  | mem :: rest, h => release rest (h.delete mem.2)

/-- The pointer `log_path_ptr` of line 48. -/
def run_log_path_ptr (log_path : RustStr) : Option CharPtr :=
  if log_path.size > 0 then some log_path.data else none

/-- The arguments of the simulator constructor on line 49. -/
def SpikeTracer.run_sim_args (self : SpikeTracer) (elf log_path : RustStr)
    (mems : List (Nat × mem_t)) : sim_args :=
  { cfg := self.run_cfg
    halted := false
    mems := mems
    plugin_device_factories := []
    args := [StdString.ofData elf.data elf.size]
    dm_config := ()
    log_path := run_log_path_ptr log_path
    dtb_enabled := true
    dtb_file := none
    socket_enabled := false
    cmd_file := none
    instruction_limit := some self.max_instructions }

/-- The method `SpikeTracer::run` (lines 14 to 63), on the heap `h` and against the
simulator `sim`. When the constructor of the simulator or `sim.run()` throws, the
exception leaves `run` at that statement. The definition in `spike.cc` takes `log_path`
as a fourth argument, which the declaration in `spike.h` does not list; the model
follows the definition. -/
def SpikeTracer.run (self : SpikeTracer) (sim : Simulator) (elf : RustStr)
    (input output : List Byte) (log_path : RustStr) (h : Heap) : RunResult :=
  let p := provision run_mem_layout [] h
  let a := self.run_sim_args elf log_path p.1
  if sim.construct a then
    match sim.run a true true false with
    | some return_code =>
        { outcome := Outcome.returned return_code
          heap := release p.1 p.2
          calls := [SimCall.construct a, SimCall.configure_log true true,
            SimCall.set_histogram false, SimCall.run] }
    | none =>
        { outcome := Outcome.threw
          heap := p.2
          calls := [SimCall.construct a, SimCall.configure_log true true,
            SimCall.set_histogram false, SimCall.run] }
  else
    { outcome := Outcome.threw
      heap := p.2
      calls := [SimCall.construct a] }

/-! ## Reading a result -/

/-- The constructor arguments handed to the simulator in a run. -/
def RunResult.handed (r : RunResult) : Option sim_args :=
  match r.calls with
  | SimCall.construct a :: _ => some a
  | _ => none

/-- The logging switches set in a run, in the order of the calls that set them. -/
def loggingCalls : List SimCall → List SimCall
  | [] => []
  | SimCall.configure_log a b :: rest => SimCall.configure_log a b :: loggingCalls rest
  | SimCall.set_histogram v :: rest => SimCall.set_histogram v :: loggingCalls rest
  | _ :: rest => loggingCalls rest

/-- The privilege levels. -/
inductive PrivLevel where
  | Machine
  | Supervisor
  | User
deriving DecidableEq, Repr

/-- The level a letter of the privilege string names, as the comment on line 23 reads
them. -/
def privOfByte (b : Byte) : Option PrivLevel :=
  if b = 77 then some PrivLevel.Machine
  else if b = 83 then some PrivLevel.Supervisor
  else if b = 85 then some PrivLevel.User
  else none

/-- The levels a privilege string names. -/
def privLevels (s : List Byte) : List PrivLevel := s.filterMap privOfByte

/-- The (base, size) pairs of a region list. -/
def regionShape (mems : List (Nat × mem_t)) : List (Nat × Nat) :=
  mems.map (fun m => (m.1, m.2.sz))

/-- The (base, size) pairs of a memory layout. -/
def layoutShape (layout : List mem_cfg_t) : List (Nat × Nat) :=
  layout.map (fun c => (c.get_base, c.get_size))

/-- Whether no two entries of a layout share an address. -/
def nonOverlapping : List mem_cfg_t → Bool
  | [] => true
  | c :: rest =>
      rest.all (fun d => decide (c.base + c.size ≤ d.base ∨ d.base + d.size ≤ c.base))
        && nonOverlapping rest

/-- A simulator whose constructor returns and whose `run` returns `code`. -/
def simReturning (code : Int) : Simulator :=
  { construct := fun _ => true, run := fun _ _ _ _ => some code }

/-- A simulator whose constructor returns and whose `run` throws. -/
def simRunThrows : Simulator :=
  { construct := fun _ => true, run := fun _ _ _ _ => none }

/-- A simulator whose constructor throws. -/
def simCtorThrows : Simulator :=
  { construct := fun _ => false, run := fun _ _ _ _ => none }

/-- The empty heap. -/
def Heap.empty : Heap := { next := 0, live := [] }

/-- A string with nothing known to follow it in memory. -/
def RustStr.ofBytes (bytes : List Byte) : RustStr := { bytes := bytes, beyond := [] }

/-- The regions the provisioning loop pushes for `layout` when the next fresh heap
address is `n`. -/
def freshFrom : List mem_cfg_t → Nat → List (Nat × mem_t)
  | [], _ => []
  | c :: rest, n => (c.get_base, { addr := n, sz := c.get_size }) :: freshFrom rest (n + 1)

/-- Every live address of the heap was handed out before: it lies below `next`. -/
def Heap.wellFormed (h : Heap) : Prop := ∀ a ∈ h.live, a < h.next

/-- A heap with two live objects, used to evaluate `run` on. -/
def Heap.sample : Heap := { next := 3, live := [0, 2] }

/-- The ISA string `rv64imac`. -/
def isaRv64 : RustStr := RustStr.ofBytes [114, 118, 54, 52, 105, 109, 97, 99]

/-- The path `fib.elf`. -/
def elfPath : RustStr := RustStr.ofBytes [102, 105, 98, 46, 101, 108, 102]

/-- The empty ISA string. -/
def isaEmpty : RustStr := RustStr.ofBytes []

/-- An ISA string with a zero byte inside: the bytes `r`, NUL, `v`. -/
def isaWithZero : RustStr := RustStr.ofBytes [114, 0, 118]

/-- A log path borrowed from the front of a longer buffer: the five bytes `t.log` of the
terminated buffer `t.log.old`. -/
def logPathSlice : RustStr :=
  { bytes := [116, 46, 108, 111, 103], beyond := [46, 111, 108, 100, 0] }

/-! ## Lemmas on strings -/

theorem readCStr_terminated (s : List Byte) :
    readCStr (s ++ [0]) = some (s.takeWhile (fun b => b ≠ 0)) := by
  induction s with
  | nil => simp [readCStr]
  | cons b rest ih =>
      by_cases hb : b = 0
      · simp [readCStr, hb]
      · simp [readCStr, hb, ih]

theorem takeWhile_nonzero_of_not_mem (s : List Byte) (hs : (0 : Byte) ∉ s) :
    s.takeWhile (fun b => b ≠ 0) = s := by
  induction s with
  | nil => rfl
  | cons b rest ih =>
      have hb : b ≠ 0 := fun e => hs (by simp [e])
      have hr : (0 : Byte) ∉ rest := fun m => hs (List.mem_cons_of_mem _ m)
      rw [List.takeWhile_cons_of_pos (by simpa using hb), ih hr]

theorem ofData_data (s : RustStr) : StdString.ofData s.data s.size = { chars := s.bytes } := by
  simp [StdString.ofData, RustStr.data, RustStr.size]

/-! ## Lemmas on the two loops -/

theorem provision_eq (layout : List mem_cfg_t) (mems : List (Nat × mem_t)) (h : Heap) :
    provision layout mems h =
      (mems ++ freshFrom layout h.next,
        { next := h.next + layout.length,
          live := h.live ++ List.range' h.next layout.length }) := by
  induction layout generalizing mems h with
  | nil => simp [provision, freshFrom]
  | cons c rest ih =>
      rw [provision, ih]
      simp [freshFrom, Heap.new_mem_t, List.range'_succ, Nat.add_assoc, Nat.add_comm 1]

theorem freshFrom_length (layout : List mem_cfg_t) (n : Nat) :
    (freshFrom layout n).length = layout.length := by
  induction layout generalizing n with
  | nil => rfl
  | cons c rest ih => simp [freshFrom, ih]

theorem freshFrom_shape (layout : List mem_cfg_t) (n : Nat) :
    regionShape (freshFrom layout n) = layoutShape layout := by
  induction layout generalizing n with
  | nil => rfl
  | cons c rest ih =>
      have := ih (n + 1)
      simp only [regionShape, layoutShape] at this
      simp [freshFrom, regionShape, layoutShape, this]

theorem freshFrom_addrs (layout : List mem_cfg_t) (n : Nat) :
    (freshFrom layout n).map (fun m => m.2.addr) = List.range' n layout.length := by
  induction layout generalizing n with
  | nil => rfl
  | cons c rest ih => simp [freshFrom, ih, List.range'_succ]

theorem release_eq (mems : List (Nat × mem_t)) (h : Heap) :
    release mems h =
      { next := h.next, live := (mems.map (fun m => m.2.addr)).foldl List.erase h.live } := by
  induction mems generalizing h with
  | nil => rfl
  | cons m rest ih => simp [release, ih, Heap.delete]

theorem foldl_erase_range (l : List Nat) (n k : Nat) (hl : ∀ a ∈ l, a < n) :
    (List.range' n k).foldl List.erase (l ++ List.range' n k) = l := by
  induction k generalizing n with
  | zero => simp
  | succ k ih =>
      have hn : n ∉ l := fun m => Nat.lt_irrefl n (hl n m)
      rw [List.range'_succ, List.foldl_cons, List.erase_append_right _ hn,
        List.erase_cons_head]
      exact ih (n + 1) (fun a ha => Nat.lt_succ_of_lt (hl a ha))

theorem release_provision (layout : List mem_cfg_t) (h : Heap) (hw : h.wellFormed) :
    (release (provision layout [] h).1 (provision layout [] h).2).live = h.live := by
  rw [provision_eq, release_eq]
  simp only [List.nil_append, freshFrom_addrs]
  exact foldl_erase_range h.live h.next layout.length hw

/-! ## Lemmas on `run` -/

theorem run_handed (self : SpikeTracer) (sim : Simulator) (elf : RustStr)
    (input output : List Byte) (log_path : RustStr) (h : Heap) :
    (self.run sim elf input output log_path h).handed =
      some (self.run_sim_args elf log_path (provision run_mem_layout [] h).1) := by
  unfold SpikeTracer.run
  dsimp only
  split
  · split <;> rfl
  · rfl

theorem run_outcome (self : SpikeTracer) (sim : Simulator) (elf : RustStr)
    (input output : List Byte) (log_path : RustStr) (h : Heap) :
    (self.run sim elf input output log_path h).outcome =
      if sim.construct (self.run_sim_args elf log_path (provision run_mem_layout [] h).1) then
        match sim.run (self.run_sim_args elf log_path (provision run_mem_layout [] h).1)
            true true false with
        | some c => Outcome.returned c
        | none => Outcome.threw
      else Outcome.threw := by
  unfold SpikeTracer.run
  dsimp only
  split
  · split <;> simp_all
  · rfl

theorem run_heap (self : SpikeTracer) (sim : Simulator) (elf : RustStr)
    (input output : List Byte) (log_path : RustStr) (h : Heap) :
    (self.run sim elf input output log_path h).heap =
      match (self.run sim elf input output log_path h).outcome with
      | Outcome.returned _ =>
          release (provision run_mem_layout [] h).1 (provision run_mem_layout [] h).2
      | Outcome.threw => (provision run_mem_layout [] h).2 := by
  unfold SpikeTracer.run
  dsimp only
  split
  · split <;> rfl
  · rfl

theorem run_logging (self : SpikeTracer) (sim : Simulator) (elf : RustStr)
    (input output : List Byte) (log_path : RustStr) (h : Heap) :
    loggingCalls (self.run sim elf input output log_path h).calls =
      if sim.construct (self.run_sim_args elf log_path (provision run_mem_layout [] h).1) then
        [SimCall.configure_log true true, SimCall.set_histogram false]
      else [] := by
  unfold SpikeTracer.run
  dsimp only
  split
  · split <;> rfl
  · rfl

theorem provision_run_layout (h : Heap) :
    provision run_mem_layout [] h =
      ([(0x80000000, { addr := h.next, sz := 0x80000000 })],
        { next := h.next + 1, live := h.live ++ [h.next] }) := rfl

theorem log_sink_null_iff_empty (log_path : RustStr) :
    run_log_path_ptr log_path = none ↔ log_path.size = 0 := by
  unfold run_log_path_ptr
  by_cases hs : log_path.size > 0
  · simp [hs]
    omega
  · simp [hs]
    omega

theorem log_sink_of_nonempty (log_path : RustStr) (hs : 0 < log_path.size) :
    run_log_path_ptr log_path = some { mem := log_path.bytes ++ log_path.beyond } := by
  simp [run_log_path_ptr, hs, RustStr.data]

theorem run_releases_on_return (self : SpikeTracer) (sim : Simulator) (elf : RustStr)
    (input output : List Byte) (log_path : RustStr) (h : Heap) (hw : h.wellFormed) (c : Int)
    (hc : (self.run sim elf input output log_path h).outcome = Outcome.returned c) :
    (self.run sim elf input output log_path h).heap.live = h.live := by
  rw [run_heap, hc]
  exact release_provision run_mem_layout h hw

/-! ## The claims -/

/-- C1: for every ISA string given at construction and every (elf, input, output,
log_path) passed to `run`, on every heap and against every simulator, the configuration
handed to the simulator has misaligned access disabled, the real-time clock disabled,
little-endian byte order, and the privilege string `MSU`, which names exactly Machine,
Supervisor and User. The four values are constants: no argument enters them. -/
theorem C1_deterministic_policy (isa elf log_path : RustStr) (input output : List Byte)
    (sim : Simulator) (h : Heap) :
    ∃ a, ((SpikeTracer.new isa).run sim elf input output log_path h).handed = some a ∧
      a.cfg.misaligned = false ∧ a.cfg.real_time_clint = false ∧
      a.cfg.endianness = endianness_t.endianness_little ∧
      a.cfg.priv.str = some [77, 83, 85] ∧
      a.cfg.priv.str.map privLevels =
        some [PrivLevel.Machine, PrivLevel.Supervisor, PrivLevel.User] :=
  ⟨_, run_handed _ _ _ _ _ _ _, rfl, rfl, rfl, rfl, rfl⟩

/-- C2: for every run, the memory layout in the configuration handed to the simulator is
the one-entry sequence (0x80000000, 0x80000000); the size of each entry is a positive
multiple of the 4096-byte page, base plus size does not exceed 2^64, and the layout is
non-overlapping. -/
theorem C2_memory_layout (isa elf log_path : RustStr) (input output : List Byte)
    (sim : Simulator) (h : Heap) :
    ∃ a, ((SpikeTracer.new isa).run sim elf input output log_path h).handed = some a ∧
      a.cfg.mem_layout = [{ base := 0x80000000, size := 0x80000000 }] ∧
      a.cfg.mem_layout.length = 1 ∧
      (∀ c ∈ a.cfg.mem_layout,
        0 < c.get_size ∧ c.get_size % 4096 = 0 ∧ c.get_base + c.get_size ≤ 2 ^ 64) ∧
      nonOverlapping a.cfg.mem_layout = true := by
  refine ⟨_, run_handed _ _ _ _ _ _ _, rfl, rfl, ?_, rfl⟩
  intro c hc
  have hc2 : c = { base := 0x80000000, size := 0x80000000 } := by
    simpa [SpikeTracer.run_sim_args, SpikeTracer.run_cfg, run_mem_layout] using hc
  subst hc2
  simp [mem_cfg_t.get_size, mem_cfg_t.get_base]

/-- C3: for every tracer built by `new_spike_tracer`, from any ISA string, the
instruction budget `run` passes to the simulator is set (not absent) and strictly
positive: it is 1000000, never zero. -/
theorem C3_budget_explicit_positive (isa elf log_path : RustStr) (input output : List Byte)
    (sim : Simulator) (h : Heap) :
    ∃ t, new_spike_tracer isa = Except.ok t ∧
      ∃ a n, (t.run sim elf input output log_path h).handed = some a ∧
        a.instruction_limit = some n ∧ 0 < n ∧ n ≠ 0 ∧ n = 1000000 :=
  ⟨_, rfl, _, 1000000, run_handed _ _ _ _ _ _ _, rfl, by decide, by decide, rfl⟩

/-- C4, the claim fails: it is not so that every ISA string a recognizer rejects makes
`new_spike_tracer` report `InvalidIsa`. The empty ISA string yields a tracer, and `run`
on that tracer hands the simulator a configuration whose ISA identifier is the empty
string. -/
theorem C4_unrecognized_isa_accepted :
    (¬ ∀ (recognized : List Byte → Bool) (isa : RustStr), recognized isa.bytes = false →
        new_spike_tracer isa = Except.error ConfigError.InvalidIsa) ∧
      new_spike_tracer isaEmpty =
        Except.ok { isa := { chars := [] }, max_instructions := 1000000 } ∧
      (((SpikeTracer.new isaEmpty).run (simReturning 0) elfPath [] [] isaEmpty
          Heap.empty).handed.map (fun a => a.cfg.isa.str)) = some (some []) := by
  refine ⟨?_, rfl, by decide⟩
  intro hall
  have hbad := hall (fun _ => false) isaEmpty rfl
  simp [new_spike_tracer] at hbad

/-- C4, amended: neither `new_spike_tracer` nor the configuration assembly in `run`
examines the ISA string. For every ISA string, `new_spike_tracer` returns a tracer that
stores its bytes, never an error, and `run` hands the simulator a configuration whose
ISA pointer views those bytes followed by a terminator. -/
theorem C4_isa_never_rejected (isa elf log_path : RustStr) (input output : List Byte)
    (sim : Simulator) (h : Heap) :
    new_spike_tracer isa = Except.ok (SpikeTracer.new isa) ∧
      (∀ e, new_spike_tracer isa ≠ Except.error e) ∧
      (SpikeTracer.new isa).isa.chars = isa.bytes ∧
      ∃ a, ((SpikeTracer.new isa).run sim elf input output log_path h).handed = some a ∧
        a.cfg.isa = { mem := isa.bytes ++ [0] } := by
  refine ⟨rfl, ?_, ?_, _, run_handed _ _ _ _ _ _ _, ?_⟩
  · intro e he
    simp [new_spike_tracer] at he
  · simp [SpikeTracer.new, ofData_data]
  · simp [SpikeTracer.run_sim_args, SpikeTracer.run_cfg, SpikeTracer.new, ofData_data,
      StdString.c_str]

/-- C6: the exit code is propagated verbatim. For every tracer, arguments and heap, and
every integer `c`: when the constructor of the simulator returns and `sim.run()` returns
`c`, `run` returns exactly `c`; the clean-up loop in between only touches the heap. -/
theorem C6_exit_code_verbatim (self : SpikeTracer) (sim : Simulator) (elf : RustStr)
    (input output : List Byte) (log_path : RustStr) (h : Heap) (c : Int)
    (hctor : sim.construct
      (self.run_sim_args elf log_path (provision run_mem_layout [] h).1) = true)
    (hrun : sim.run (self.run_sim_args elf log_path (provision run_mem_layout [] h).1)
      true true false = some c) :
    (self.run sim elf input output log_path h).outcome = Outcome.returned c := by
  rw [run_outcome, hctor, hrun]
  rfl

/-- C6 at a concrete run: a simulator that returns -7 makes `run` return -7, and one
that returns 0 makes it return 0. -/
theorem C6_exit_code_verbatim_witness :
    ((SpikeTracer.new isaRv64).run (simReturning (-7)) elfPath [1, 2] [0] logPathSlice
        Heap.sample).outcome = Outcome.returned (-7) ∧
      ((SpikeTracer.new isaRv64).run (simReturning 0) elfPath [1, 2] [0] logPathSlice
        Heap.sample).outcome = Outcome.returned 0 :=
  ⟨C6_exit_code_verbatim (SpikeTracer.new isaRv64) (simReturning (-7)) elfPath [1, 2] [0]
      logPathSlice Heap.sample (-7) rfl rfl,
    C6_exit_code_verbatim (SpikeTracer.new isaRv64) (simReturning 0) elfPath [1, 2] [0]
      logPathSlice Heap.sample 0 rfl rfl⟩

/-- C5, the code at a failing input: on the empty heap, a run whose `sim.run()` throws
and a run whose simulator constructor throws both end with the acquired region (address
0) still live, because the exception leaves `run` before the clean-up loop of lines 59
to 61; the run whose simulator returns goes through that loop and ends with no live
region. So it is not so that the live set is empty at the end of `run` against every
simulator. -/
theorem C5_regions_leak_on_failure :
    ((SpikeTracer.new isaRv64).run simRunThrows elfPath [] [] logPathSlice
        Heap.empty).outcome = Outcome.threw ∧
      ((SpikeTracer.new isaRv64).run simRunThrows elfPath [] [] logPathSlice
        Heap.empty).heap.live = [0] ∧
      ((SpikeTracer.new isaRv64).run simCtorThrows elfPath [] [] logPathSlice
        Heap.empty).outcome = Outcome.threw ∧
      ((SpikeTracer.new isaRv64).run simCtorThrows elfPath [] [] logPathSlice
        Heap.empty).heap.live = [0] ∧
      ((SpikeTracer.new isaRv64).run (simReturning 0) elfPath [] [] logPathSlice
        Heap.empty).heap.live = [] ∧
      ¬ ∀ sim : Simulator, ((SpikeTracer.new isaRv64).run sim elfPath [] [] logPathSlice
        Heap.empty).heap.live = [] := by
  refine ⟨by decide, by decide, by decide, by decide, by decide, ?_⟩
  intro hall
  exact absurd (hall simRunThrows) (by decide)

/-- C7, the code at a failing input: the log path is the five bytes `t.log`, borrowed
from the front of the buffer `t.log.old`. The sink handed to the simulator is the raw
pointer `log_path.data()`, and a C-string reader of it obtains the nine bytes
`t.log.old`, not the five bytes of the log path. When nothing terminates the memory
behind the bytes, the reader finds no end at all. -/
theorem C7_log_sink_reads_past_log_path :
    logPathSlice.size = 5 ∧ logPathSlice.bytes = [116, 46, 108, 111, 103] ∧
      (((SpikeTracer.new isaRv64).run (simReturning 0) elfPath [] [] logPathSlice
          Heap.empty).handed.map (fun a => a.log_path.map CharPtr.str)) =
        some (some (some [116, 46, 108, 111, 103, 46, 111, 108, 100])) ∧
      (((SpikeTracer.new isaRv64).run (simReturning 0) elfPath [] []
          (RustStr.ofBytes [116, 46, 108, 111, 103])
          Heap.empty).handed.map (fun a => a.log_path.map CharPtr.str)) =
        some (some none) := by
  decide

/-- C8: determinism of the driver. Take two calls of `run` on tracers built from ISA
strings with the same bytes, with elf paths of the same bytes and log paths of the same
bytes, on any two heaps, with any input and output slices, against any two simulators.
Then the configuration (its memory layout included), the bases and sizes of the
provisioned regions, the HTIF argument list and the instruction budget handed to the
simulator are identical; the logging switches are identical when the constructor
behaves alike in both; when the simulator returns the same code in both, both calls
return that code; and changing only the input and output slices changes nothing of what
a call does. -/
theorem C8_driver_deterministic (isa₁ isa₂ elf₁ elf₂ lp₁ lp₂ : RustStr)
    (in₁ out₁ in₂ out₂ : List Byte) (sim₁ sim₂ : Simulator) (h₁ h₂ : Heap)
    (hisa : isa₁.bytes = isa₂.bytes) (helf : elf₁.bytes = elf₂.bytes)
    (hlp : lp₁.bytes = lp₂.bytes) :
    ∃ a₁ a₂,
      ((SpikeTracer.new isa₁).run sim₁ elf₁ in₁ out₁ lp₁ h₁).handed = some a₁ ∧
      ((SpikeTracer.new isa₂).run sim₂ elf₂ in₂ out₂ lp₂ h₂).handed = some a₂ ∧
      a₁.cfg = a₂.cfg ∧ a₁.cfg.mem_layout = a₂.cfg.mem_layout ∧
      regionShape a₁.mems = regionShape a₂.mems ∧
      a₁.args = a₂.args ∧
      a₁.instruction_limit = a₂.instruction_limit ∧
      (a₁.log_path = none ↔ a₂.log_path = none) ∧
      (sim₁.construct a₁ = sim₂.construct a₂ →
        loggingCalls ((SpikeTracer.new isa₁).run sim₁ elf₁ in₁ out₁ lp₁ h₁).calls =
          loggingCalls ((SpikeTracer.new isa₂).run sim₂ elf₂ in₂ out₂ lp₂ h₂).calls) ∧
      (∀ c, sim₁.construct a₁ = true → sim₁.run a₁ true true false = some c →
        sim₂.construct a₂ = true → sim₂.run a₂ true true false = some c →
        ((SpikeTracer.new isa₁).run sim₁ elf₁ in₁ out₁ lp₁ h₁).outcome = Outcome.returned c ∧
        ((SpikeTracer.new isa₂).run sim₂ elf₂ in₂ out₂ lp₂ h₂).outcome = Outcome.returned c) ∧
      (SpikeTracer.new isa₁).run sim₁ elf₁ in₁ out₁ lp₁ h₁ =
        (SpikeTracer.new isa₁).run sim₁ elf₁ in₂ out₂ lp₁ h₁ := by
  have hnew : SpikeTracer.new isa₁ = SpikeTracer.new isa₂ := by
    simp [SpikeTracer.new, ofData_data, hisa]
  refine ⟨_, _, run_handed _ _ _ _ _ _ _, run_handed _ _ _ _ _ _ _, ?_, ?_, ?_, ?_, ?_, ?_,
    ?_, ?_, rfl⟩
  · simp [SpikeTracer.run_sim_args, hnew]
  · simp [SpikeTracer.run_sim_args, hnew]
  · simp [SpikeTracer.run_sim_args, provision_run_layout, regionShape]
  · simp [SpikeTracer.run_sim_args, ofData_data, helf]
  · simp [SpikeTracer.run_sim_args, hnew]
  · simp [SpikeTracer.run_sim_args, run_log_path_ptr, RustStr.size, hlp]
  · intro hsame
    rw [run_logging, run_logging, hsame]
  · intro c hc₁ hr₁ hc₂ hr₂
    constructor
    · rw [run_outcome, hc₁, hr₁]
      rfl
    · rw [run_outcome, hc₂, hr₂]
      rfl

/-- C8 at concrete runs: the same ISA, elf path and log path, on two different heaps and
with different input and output slices, against a simulator returning 5. -/
theorem C8_driver_deterministic_witness :
    ∃ a₁ a₂,
      ((SpikeTracer.new isaRv64).run (simReturning 5) elfPath [1] [2] logPathSlice
        Heap.empty).handed = some a₁ ∧
      ((SpikeTracer.new isaRv64).run (simReturning 5) elfPath [3, 4] [] logPathSlice
        Heap.sample).handed = some a₂ ∧
      a₁.cfg = a₂.cfg ∧ regionShape a₁.mems = regionShape a₂.mems ∧ a₁.args = a₂.args ∧
      a₁.instruction_limit = a₂.instruction_limit ∧
      ((SpikeTracer.new isaRv64).run (simReturning 5) elfPath [1] [2] logPathSlice
        Heap.empty).outcome = Outcome.returned 5 ∧
      ((SpikeTracer.new isaRv64).run (simReturning 5) elfPath [3, 4] [] logPathSlice
        Heap.sample).outcome = Outcome.returned 5 := by
  obtain ⟨a₁, a₂, e₁, e₂, hcfg, _, hshape, hargs, hlim, _, _, hcode, _⟩ :=
    C8_driver_deterministic isaRv64 isaRv64 elfPath elfPath logPathSlice logPathSlice
      [1] [2] [3, 4] [] (simReturning 5) (simReturning 5) Heap.empty Heap.sample rfl rfl rfl
  exact ⟨a₁, a₂, e₁, e₂, hcfg, hshape, hargs, hlim, hcode 5 rfl rfl rfl rfl⟩

/-- C9: the provisioning loop makes one region per layout entry. For every memory layout
and heap, the region list has the length of the layout, its i-th element has the base
of the i-th entry and a buffer of exactly the size of the i-th entry, in the same
order, and the buffers are distinct objects. In `run`, with the fixed layout, the list
handed to the simulator is the single region (0x80000000, 0x80000000). -/
theorem C9_one_region_per_entry (layout : List mem_cfg_t) (h : Heap) (self : SpikeTracer)
    (sim : Simulator) (elf : RustStr) (input output : List Byte) (log_path : RustStr) :
    (provision layout [] h).1.length = layout.length ∧
      regionShape (provision layout [] h).1 = layoutShape layout ∧
      (∀ i : Nat, ((provision layout [] h).1[i]?).map (fun m => (m.1, m.2.sz)) =
        (layout[i]?).map (fun c => (c.get_base, c.get_size))) ∧
      ((provision layout [] h).1.map (fun m => m.2.addr)).Nodup ∧
      ∃ a, (self.run sim elf input output log_path h).handed = some a ∧
        a.mems = (provision run_mem_layout [] h).1 ∧
        regionShape a.mems = [(0x80000000, 0x80000000)] := by
  have hshape : regionShape (provision layout [] h).1 = layoutShape layout := by
    rw [provision_eq]
    simpa using freshFrom_shape layout h.next
  refine ⟨?_, hshape, ?_, ?_, _, run_handed _ _ _ _ _ _ _, rfl, rfl⟩
  · rw [provision_eq]
    simpa using freshFrom_length layout h.next
  · intro i
    have hi := congrArg (fun l => l[i]?) hshape
    simpa [regionShape, layoutShape, List.getElem?_map] using hi
  · rw [provision_eq]
    simp only [List.nil_append, freshFrom_addrs]
    exact List.nodup_range' h.next layout.length

/-- C10, the claim fails: for the ISA string made of the bytes `r`, NUL, `v`, the tracer
stores all three bytes, yet the ISA identifier a reader obtains through the C-string
view in the configuration is the single byte `r`. -/
theorem C10_isa_cut_at_zero_byte :
    isaWithZero.bytes = [114, 0, 118] ∧
      (SpikeTracer.new isaWithZero).isa.chars = [114, 0, 118] ∧
      (((SpikeTracer.new isaWithZero).run (simReturning 0) elfPath [] [] isaEmpty
          Heap.empty).handed.map (fun a => a.cfg.isa.str)) = some (some [114]) ∧
      (((SpikeTracer.new isaWithZero).run (simReturning 0) elfPath [] [] isaEmpty
          Heap.empty).handed.map (fun a => a.cfg.isa.str)) ≠
        some (some isaWithZero.bytes) := by
  decide

/-- C10, amended: for every ISA string s passed to `new_spike_tracer` and every elf path
e passed to `run`, the ISA identifier of the configuration, read through the C-string
view of the stored string, is s up to its first zero byte, hence exactly s when s
contains no zero byte; and the HTIF argument list has exactly one element, equal to e
byte for byte. -/
theorem C10_identifiers_reach_simulator (isa elf log_path : RustStr)
    (input output : List Byte) (sim : Simulator) (h : Heap) :
    ∃ a, ((SpikeTracer.new isa).run sim elf input output log_path h).handed = some a ∧
      a.cfg.isa.str = some (isa.bytes.takeWhile (fun b => b ≠ 0)) ∧
      ((0 : Byte) ∉ isa.bytes → a.cfg.isa.str = some isa.bytes) ∧
      a.args = [{ chars := elf.bytes }] ∧ a.args.length = 1 := by
  have hstr : ((SpikeTracer.new isa).run_sim_args elf log_path
      (provision run_mem_layout [] h).1).cfg.isa.str =
        some (isa.bytes.takeWhile (fun b => b ≠ 0)) := by
    simp only [SpikeTracer.run_sim_args, SpikeTracer.run_cfg, SpikeTracer.new, ofData_data,
      StdString.c_str, CharPtr.str]
    exact readCStr_terminated isa.bytes
  refine ⟨_, run_handed _ _ _ _ _ _ _, hstr, ?_, ?_, rfl⟩
  · intro hz
    rw [hstr, takeWhile_nonzero_of_not_mem _ hz]
  · simp [SpikeTracer.run_sim_args, ofData_data]

/-- C10 amended, at a concrete run: the ISA string `rv64imac` and the path `fib.elf`
reach the simulator unchanged. -/
theorem C10_identifiers_reach_simulator_witness :
    ∃ a, ((SpikeTracer.new isaRv64).run (simReturning 0) elfPath [] [] logPathSlice
        Heap.empty).handed = some a ∧
      a.cfg.isa.str = some [114, 118, 54, 52, 105, 109, 97, 99] ∧
      a.args = [{ chars := [102, 105, 98, 46, 101, 108, 102] }] := by
  obtain ⟨a, ha, _, hz, hargs, _⟩ :=
    C10_identifiers_reach_simulator isaRv64 elfPath logPathSlice [] [] (simReturning 0)
      Heap.empty
  exact ⟨a, ha, hz (by decide), hargs⟩

end Spike
